import Mathlib

/-!
Shallow embedding of the content tree flattening and reference resolution
engine of cnxlegacydb2epub.py (cnx-legacydb2epub).

The database is an external collaborator; it is modelled as abstract lookup
functions, one per SQL statement of the source.  Everything else (the
reference grammar, the ignore filter, the resolver rewriting, the tree
flattening and the content extraction walk) is translated from the Python
source.  Python generators are modelled as the pair of the list of yields
produced before termination and an optional terminating error; `None` and
empty-string truthiness is modelled explicitly where the source relies on it.
-/

/-- ASCII whitespace stripped by Python str.strip (space, tab, newline,
carriage return, vertical tab, form feed).  Unicode whitespace is out of
scope for the references this program handles. -/
def isPySpace (c : Char) : Bool :=
  c == ' ' || c == '\t' || c == '\n' || c == '\r' || c == '\x0b' || c == '\x0c'

/-- Python str.strip() with no arguments. -/
def pyStrip (s : String) : String :=
  String.mk (((s.toList.dropWhile isPySpace).reverse.dropWhile isPySpace).reverse)

/-- List-level prefix test; first argument is the candidate leading segment. -/
def leadsWith : List Char → List Char → Bool
  | [], _ => true
  | _ :: _, [] => false
  | c :: cs, d :: ds => c == d && leadsWith cs ds

/-- Python str.startswith. -/
def strLeadsWith (s pre : String) : Bool := leadsWith pre.toList s.toList

/-- ReferenceResolver._should_ignore_reference: strip the reference, then a
plain prefix test against the exclusion list. -/
def should_ignore_reference (ref : String) : Bool :=
  let r := pyStrip ref
  r == "" || strLeadsWith r "#" || strLeadsWith r "http" || strLeadsWith r "mailto" ||
    strLeadsWith r "file" || strLeadsWith r "/help" || strLeadsWith r "ftp" ||
    strLeadsWith r "javascript:"

/-- re \d over ASCII input. -/
def isPyDigit (c : Char) : Bool := decide ('0' ≤ c ∧ c ≤ '9')

/-- re \w over ASCII input (letters, digits, underscore). -/
def isWordAscii (c : Char) : Bool := c.isAlpha || c.isDigit || c == '_'

/-- One character of the class [ -_.@\w\d] of PATH_REFERENCE_REGEX: the
range from space (0x20) to underscore (0x5F), word characters, dot and at.
Note 0x23, the hash sign, lies inside the range. -/
def isResourceChar (c : Char) : Bool :=
  decide (' ' ≤ c ∧ c ≤ '_') || isWordAscii c || c == '.' || c == '@'

/-- Case-insensitive literal match (re.IGNORECASE): returns the matched
input characters (original case) and the rest. -/
def matchCI : List Char → List Char → Option (List Char × List Char)
  | [], cs => some ([], cs)
  | _ :: _, [] => none
  | l :: ls, c :: cs =>
    if c.toLower == l then
      match matchCI ls cs with
      | some (m, r) => some (c :: m, r)
      | none => none
    else none

/-- Greedy \d{4,5}: five digits if available, else four, else fail. -/
def matchDigits45 (cs : List Char) : Option (List Char × List Char) :=
  let ds := cs.takeWhile isPyDigit
  if ds.length ≥ 5 then some (cs.take 5, cs.drop 5)
  else if ds.length == 4 then some (cs.take 4, cs.drop 4)
  else none

/-- The col branch of (m|col)\d{4,5}. -/
def tryCol (cs : List Char) : Option (List Char × List Char) :=
  match matchCI "col".toList cs with
  | some (pre, rest) =>
    match matchDigits45 rest with
    | some (ds, r) => some (pre ++ ds, r)
    | none => none
  | none => none

/-- (m|col)\d{4,5}, alternatives in the given order, case-insensitive. -/
def matchModule (cs : List Char) : Option (List Char × List Char) :=
  match cs with
  | [] => none
  | c :: rest =>
    if c.toLower == 'm' then
      match matchDigits45 rest with
      | some (ds, r) => some (c :: ds, r)
      | none => tryCol cs
    else tryCol cs

/-- ([/@]([.\d]+|latest))? — the version token after a module id.  The
character-class alternative is tried first and is greedy; nothing after the
group constrains it, so no backtracking into it can occur. -/
def matchVersion (cs : List Char) : Option (List Char × List Char) :=
  match cs with
  | [] => none
  | sep :: rest =>
    if sep == '/' || sep == '@' then
      let ds := rest.takeWhile (fun c => c == '.' || isPyDigit c)
      if ds.isEmpty then matchCI "latest".toList rest
      else some (ds, rest.drop ds.length)
    else none

/-- The part of group 1 after the optional markers: spaces, module id,
optional version.  The space run is maximal: the module token starts with a
letter, so a shorter run would leave the module match facing a space. -/
def g1Core (cs : List Char) : Option (List Char × Option (List Char) × List Char) :=
  let cs1 := cs.dropWhile (fun c => c == ' ')
  match matchModule cs1 with
  | none => none
  | some (modChars, rest) =>
    match matchVersion rest with
    | some (verChars, rest2) => some (modChars, some verChars, rest2)
    | none => some (modChars, none, rest)

/-- Group 1 with the content/ marker consumed first. -/
def g1Content (cs : List Char) : Option (List Char × Option (List Char) × List Char) :=
  match matchCI "content/".toList cs with
  | some (_, rest) => g1Core rest
  | none => none

/-- The optional group 1 of PATH_REFERENCE_REGEX:
/?(content/)? *(module)([/@]version)? with the backtracking preference
order of the engine: leading slash taken first, content/ marker taken
first.  Everything after the group always matches, so the first success
here is the committed one. -/
def g1Try (cs : List Char) : Option (List Char × Option (List Char) × List Char) :=
  match cs with
  | '/' :: t => (g1Content t).orElse (fun _ => (g1Core t).orElse (fun _ =>
      (g1Content cs).orElse (fun _ => g1Core cs)))
  | _ => (g1Content cs).orElse (fun _ => g1Core cs)

/-- The trailing (#?.*)?$ of the pattern under re.match: it accepts any
remainder whose characters are newline-free except for at most one final
newline (the Python $ may sit just before a final newline), and the group
captures the remainder without that final newline. -/
def fragCheck (cs : List Char) : Option (List Char) :=
  if cs.contains '\n' then
    if cs.getLast? == some '\n' && !(cs.dropLast.contains '\n') then some cs.dropLast
    else none
  else some cs

/-- The four named groups of a successful PATH_REFERENCE_REGEX match. -/
structure PathMatch where
  module : Option String
  version : Option String
  resource : Option String
  fragment : String
deriving DecidableEq, Repr

/-- PATH_REFERENCE_REGEX.match(s).  Group 1 is matched greedily; then the
bare /? ; then the resource group [^#][ -_.@\w\d]+ greedily (first
character anything but the hash sign, then at least one class character);
then the fragment.  Since the fragment accepts any newline-free remainder,
no backtracking across groups can change a committed prefix, which makes
this direct greedy scan equivalent to the backtracking engine. -/
def reMatchPath (s : String) : Option PathMatch :=
  let cs := s.toList
  let g1 := g1Try cs
  let rest1 := match g1 with
    | some r => r.2.2
    | none => cs
  let rest2 := match rest1 with
    | '/' :: t => t
    | _ => rest1
  let resPair : Option (List Char) × List Char :=
    match rest2 with
    | [] => (none, rest2)
    | c :: t =>
      if c == '#' then (none, rest2)
      else
        let run := t.takeWhile isResourceChar
        if run.isEmpty then (none, rest2)
        else (some (c :: run), t.dropWhile isResourceChar)
  match fragCheck resPair.2 with
  | none => none
  | some frag =>
    some { module := (g1.map (fun r => r.1)).map String.mk,
           version := (g1.bind (fun r => r.2.1)).map String.mk,
           resource := resPair.1.map String.mk,
           fragment := String.mk frag }

/-- Result of parse_reference: the (type, value) pair of the source.
unrecognized stands for type None with the empty payload, whose unpacking
by the callers raises ValueError exactly like an unparsable reference. -/
inductive ParsedRef where
  | moduleRef (module : String) (version : Option String) (fragment : String)
  | resourceRef (filename : String) (module : Option String) (version : Option String)
  | unrecognized
deriving DecidableEq, Repr

/-- parse_reference.  none models the ValueError raised when the regex does
not match.  A version equal to the literal lowercase latest is normalized
to absent before classification; the resource branch wins over the module
branch; the resource filename is stripped. -/
def parse_reference (ref : String) : Option ParsedRef :=
  match reMatchPath ref with
  | none => none
  | some m =>
    let version := if m.version == some "latest" then none else m.version
    match m.resource with
    | some r => some (ParsedRef.resourceRef (pyStrip r) m.module version)
    | none =>
      match m.module with
      | some mid => some (ParsedRef.moduleRef mid version m.fragment)
      | none => some ParsedRef.unrecognized

/-- A resource info row of SQL_RESOURCE_INFO_STATEMENT (hash, filename,
mediatype).  In the source the row passes through a Python 2 leftover,
isinstance(info, basestring), before being returned; under Python 3 (which
the yield from syntax of the file requires) that name is undefined and
raises NameError on every successful lookup.  The intended semantics — the
row is already parsed, the normalization a no-op — is modelled here. -/
structure ResourceInfo where
  hash : String
  filename : String
  mediatype : String
deriving DecidableEq, Repr

/-- The abstract database contract of the Reference Resolver, one field per
SQL statement it executes. -/
structure ResolveRepo where
  uuidNVersionById : String → Option (String × String)
  uuidNVersionByIdAndVersion : String → String → Option (String × String)
  latestDocumentIdentById : String → Option Nat
  documentIdentByIdAndVersion : String → String → Option Nat
  resourceInfoByIdentAndFilename : Nat → String → Option ResourceInfo

/-- One accumulated resolution error.  notFound stands for
ReferenceNotFound, invalid for InvalidReference; the formatted human
message of the exception is elided, the structured fields (the document
ident and the offending reference string) are kept. -/
inductive RefError where
  | notFound (documentIdent : Nat) (reference : String)
  | invalid (documentIdent : Nat) (reference : String)
deriving DecidableEq, Repr

/-- Python truthiness of a value that is None or a string. -/
def pyTruthyOpt : Option String → Bool
  | none => false
  | some s => !(s == "")

/-- ReferenceResolver.get_uuid_n_version: a truthy version selects the
by-id-and-version query, otherwise the latest_modules query; a missing row
yields the (None, None) pair, modelled as none. -/
def get_uuid_n_version (rr : ResolveRepo) (module_id : String) (version : Option String) :
    Option (String × String) :=
  if pyTruthyOpt version then rr.uuidNVersionByIdAndVersion module_id (version.getD "")
  else rr.uuidNVersionById module_id

/-- ReferenceResolver.get_resource_info: resolve the owning document ident
(from the id/version pair, from the latest table, or default to the
document being processed), then fetch the resource row; every missing row
raises ReferenceNotFound carrying the ident in scope at that point. -/
def get_resource_info (rr : ResolveRepo) (document_ident : Nat) (filename : String)
    (document_id version : Option String) : Except RefError ResourceInfo :=
  if pyTruthyOpt document_id then
    if pyTruthyOpt version then
      match rr.documentIdentByIdAndVersion (document_id.getD "") (version.getD "") with
      | none => Except.error (RefError.notFound document_ident filename)
      | some di2 =>
        match rr.resourceInfoByIdentAndFilename di2 filename with
        | none => Except.error (RefError.notFound di2 filename)
        | some info => Except.ok info
    else
      match rr.latestDocumentIdentById (document_id.getD "") with
      | none => Except.error (RefError.notFound document_ident filename)
      | some di2 =>
        match rr.resourceInfoByIdentAndFilename di2 filename with
        | none => Except.error (RefError.notFound di2 filename)
        | some info => Except.ok info
  else
    match rr.resourceInfoByIdentAndFilename document_ident filename with
    | none => Except.error (RefError.notFound document_ident filename)
    | some info => Except.ok info

/-- A markup element: tag, attributes in document order, children.  The
lxml tree is mutated in place by the resolver; here rewriting is a pure
tree map. -/
inductive Elem where
  | elem (tag : String) (attrs : List (String × String)) (children : List Elem)
deriving Repr

/-- lxml elem.get(key). -/
def getAttr (attrs : List (String × String)) (key : String) : Option String :=
  (attrs.find? (fun p => p.1 == key)).map (fun p => p.2)

/-- lxml elem.set(key, val): replace in place, or append a new attribute. -/
def setAttr : List (String × String) → String → String → List (String × String)
  | [], key, val => [(key, val)]
  | (k, v) :: rest, key, val =>
    if k == key then (key, val) :: rest else (k, v) :: setAttr rest key val

/-- The three attribute writes of a successful resource rewrite: the
reference attribute to ../resources/<hash>, plus data-filename and
data-mediatype. -/
def setResourceAttrs (attrs : List (String × String)) (attr : String) (info : ResourceInfo) :
    List (String × String) :=
  setAttr (setAttr (setAttr attrs attr ("../resources/" ++ info.hash))
    "data-filename" info.filename) "data-mediatype" info.mediatype

/-- The body of the fix_anchor_references loop for one anchor element,
acting on its attribute list.  An absent, empty or ignored href is skipped;
an unparsable reference or an empty parse payload records
InvalidReference; a module reference is resolved to
<uuid>@<version>.html<fragment> or records ReferenceNotFound; a resource
reference is resolved through get_resource_info. -/
def anchorStepAttrs (rr : ResolveRepo) (document_ident : Nat)
    (attrs : List (String × String)) : List (String × String) × List RefError :=
  match getAttr attrs "href" with
  | none => (attrs, [])
  | some ref =>
    if ref == "" then (attrs, [])
    else if should_ignore_reference ref then (attrs, [])
    else
      match parse_reference ref with
      | none => (attrs, [RefError.invalid document_ident ref])
      | some (ParsedRef.moduleRef module_id version fragment) =>
        match get_uuid_n_version rr module_id version with
        | none => (attrs, [RefError.notFound document_ident ref])
        | some (uuid, ver2) =>
          (setAttr attrs "href" (uuid ++ "@" ++ ver2 ++ ".html" ++ fragment), [])
      | some (ParsedRef.resourceRef f module_id version) =>
        match get_resource_info rr document_ident f module_id version with
        | Except.error e => (attrs, [e])
        | Except.ok info => (setResourceAttrs attrs "href" info, [])
      | some ParsedRef.unrecognized => (attrs, [RefError.invalid document_ident ref])

/-- The body of the fix_media_references loop for one matched element.  The
source unpacks the parse payload as (filename, module_id, version)
regardless of the reference type, so a module-reference payload lands
scrambled: the module id in the filename slot, the version in the owning
document slot and the fragment in the version slot; the empty payload of
an unclassified match raises ValueError, caught as InvalidReference. -/
def mediaStepAttrs (rr : ResolveRepo) (document_ident : Nat) (attr : String)
    (attrs : List (String × String)) : List (String × String) × List RefError :=
  match getAttr attrs attr with
  | none => (attrs, [])
  | some filename =>
    if filename == "" then (attrs, [])
    else if should_ignore_reference filename then (attrs, [])
    else
      match parse_reference filename with
      | none => (attrs, [RefError.invalid document_ident filename])
      | some ParsedRef.unrecognized => (attrs, [RefError.invalid document_ident filename])
      | some (ParsedRef.resourceRef f module_id version) =>
        match get_resource_info rr document_ident f module_id version with
        | Except.error e => (attrs, [e])
        | Except.ok info => (setResourceAttrs attrs attr info, [])
      | some (ParsedRef.moduleRef module_id version fragment) =>
        match get_resource_info rr document_ident module_id version (some fragment) with
        | Except.error e => (attrs, [e])
        | Except.ok info => (setResourceAttrs attrs attr info, [])

mutual

/-- The //html:a traversal of fix_anchor_references: every anchor element
of the tree, in document order, has its attributes rewritten by the loop
body; errors accumulate in the same order. -/
def fixAnchorTree (rr : ResolveRepo) (di : Nat) : Elem → Elem × List RefError
  | Elem.elem tag attrs children =>
    let step := if tag == "a" then anchorStepAttrs rr di attrs else (attrs, [])
    let sub := fixAnchorList rr di children
    (Elem.elem tag step.1 (sub.map Prod.fst), step.2 ++ (sub.map Prod.snd).flatten)

/-- The anchor traversal over a list of sibling elements, left to right. -/
def fixAnchorList (rr : ResolveRepo) (di : Nat) : List Elem → List (Elem × List RefError)
  | [] => []
  | e :: es => fixAnchorTree rr di e :: fixAnchorList rr di es

end

/-- ReferenceResolver.fix_anchor_references. -/
def fix_anchor_references (rr : ResolveRepo) (document_ident : Nat) (doc : Elem) :
    Elem × List RefError :=
  fixAnchorTree rr document_ident doc

/-- One entry of the media_xpath table: an optional required parent tag
(for the object/embed path), the element tag and the attribute carrying the
reference. -/
structure MediaPath where
  parentTag : Option String
  tag : String
  attr : String
deriving DecidableEq, Repr

/-- The media_xpath table in insertion order (Python 3.7+ dict order). -/
def media_xpaths : List MediaPath :=
  [ ⟨none, "img", "src"⟩, ⟨none, "audio", "src"⟩, ⟨none, "video", "src"⟩,
    ⟨none, "object", "data"⟩, ⟨some "object", "embed", "src"⟩,
    ⟨none, "source", "src"⟩, ⟨none, "span", "data-src"⟩ ]

mutual

/-- One xpath pass of fix_media_references over the tree, in document
order, rewriting every element whose tag (and, when required, parent tag)
matches. -/
def mediaPassElem (rr : ResolveRepo) (di : Nat) (pp : MediaPath) (parent : Option String) :
    Elem → Elem × List RefError
  | Elem.elem tag attrs children =>
    let hit := tag == pp.tag && (pp.parentTag == none || pp.parentTag == parent)
    let step := if hit then mediaStepAttrs rr di pp.attr attrs else (attrs, [])
    let sub := mediaPassList rr di pp (some tag) children
    (Elem.elem tag step.1 (sub.map Prod.fst), step.2 ++ (sub.map Prod.snd).flatten)

/-- One media pass over a list of sibling elements, left to right; the
parent tag of all of them is the first argument. -/
def mediaPassList (rr : ResolveRepo) (di : Nat) (pp : MediaPath) (parent : Option String) :
    List Elem → List (Elem × List RefError)
  | [] => []
  | e :: es => mediaPassElem rr di pp parent e :: mediaPassList rr di pp parent es

end

/-- ReferenceResolver.fix_media_references: the seven xpath passes run in
table order over the document, threading the rewritten tree and
concatenating the error lists. -/
def fix_media_references (rr : ResolveRepo) (document_ident : Nat) (doc : Elem) :
    Elem × List RefError :=
  media_xpaths.foldl (fun acc pp =>
    let r := mediaPassElem rr document_ident pp none acc.1
    (r.1, acc.2 ++ r.2)) (doc, [])

/-- ReferenceResolver.__call__ / fix_reference_urls: media references
first, then anchor references, returning the rewritten document and all
collected errors. -/
def fix_reference_urls (rr : ResolveRepo) (document_ident : Nat) (doc : Elem) :
    Elem × List RefError :=
  let m := fix_media_references rr document_ident doc
  let a := fix_anchor_references rr document_ident m.1
  (a.1, m.2 ++ a.2)

/-- A node of the collection tree JSON: a mapping with a contents list, or
a leaf mapping without one.  A grouping sub-collection carries the id
sentinel subcol. -/
inductive TocTree where
  | node (id title : String) (contents : List TocTree)
  | item (id title : String)
deriving Repr

mutual

/-- flatten_tree_to_ident_hashs: a node with contents yields its own id
unless it is the subcol sentinel, then the flattening of each child in
order; a leaf yields its id. -/
def flatten_tree_to_ident_hashs : TocTree → List String
  | TocTree.node id _ contents =>
    (if id != "subcol" then [id] else []) ++ flattenContents contents
  | TocTree.item id _ => [id]

/-- The for-loop of flatten_tree_to_ident_hashs over the contents list. -/
def flattenContents : List TocTree → List String
  | [] => []
  | t :: ts => flatten_tree_to_ident_hashs t ++ flattenContents ts

end

/-- The module row of SQL_GET_MODULE that extract_content consumes: the
canonical id (uuid), the dotted version, the internal primary key
module_ident and the portal type. -/
structure ModuleRow where
  id : String
  version : String
  ident : Nat
  portalType : String
  title : String
deriving DecidableEq, Repr

/-- The abstract database contract of the walker, one field per SQL
statement: the module row by canonical id and version, the collection tree
by the same pair, and the index.cnxml.html content (parsed markup) by
module_ident. -/
structure Repo where
  getModule : String → String → Option ModuleRow
  getTree : String → String → Option TocTree
  getContent : Nat → Option Elem

/-- One yield of extract_content: a collection row with its fetched tree,
or a leaf row with its content document. -/
inductive ContentItem where
  | collection (row : ModuleRow) (tree : TocTree)
  | document (row : ModuleRow) (content : Elem)
deriving Repr

/-- A terminating error of the walk: the two ValueError raises of
extract_content, the uncaught failure when a collection has no tree row,
the ValueError from unpacking an ident hash without exactly one at-sign,
and the fuel marker of this embedding (the source recursion is unbounded). -/
inductive ExtractErr where
  | contentNotFound (id version : String)
  | indexNotFound (id version : String)
  | treeNotFound (id version : String)
  | identHashSplitError (identHash : String)
  | outOfFuel
deriving DecidableEq, Repr

/-- Split at the at-sign; fails unless the character occurs exactly once,
like the two-variable unpacking of str.split in the source. -/
def splitOnAt : List Char → Option (List Char × List Char)
  | [] => none
  | '@' :: rest => if rest.contains '@' then none else some ([], rest)
  | c :: rest =>
    match splitOnAt rest with
    | some (a, b) => some (c :: a, b)
    | none => none

/-- id, version = ident_hash.split(at-sign). -/
def splitIdentHash (s : String) : Option (String × String) :=
  (splitOnAt s.toList).map (fun p => (String.mk p.1, String.mk p.2))

/-- The for-loop of the collection branch of extract_content: each ident
hash is split, an entry equal to the composite itself is skipped, and the
recursion (the step argument) runs on the rest; the yields before a
terminating error are kept, as a consumer of the generator sees them. -/
def extract_children (step : String → String → List ContentItem × Option ExtractErr)
    (selfId selfVersion : String) : List String → List ContentItem × Option ExtractErr
  | [] => ([], none)
  | h :: hs =>
    match splitIdentHash h with
    | none => ([], some (ExtractErr.identHashSplitError h))
    | some (cid, cver) =>
      if cid = selfId ∧ cver = selfVersion then extract_children step selfId selfVersion hs
      else
        match step cid cver with
        | (items, some err) => (items, some err)
        | (items, none) =>
          let rest := extract_children step selfId selfVersion hs
          (items ++ rest.1, rest.2)

/-- extract_content: fetch the module row (ValueError if absent); a
collection fetches its tree, yields itself, then walks the flattened tree
recursively, skipping its own (id, version); a leaf fetches its
index.cnxml.html content (ValueError if absent) and yields itself.  The
source recursion has no depth bound; the fuel argument only caps the
modelled depth and is irrelevant whenever it exceeds the tree height. -/
def extract_content (repo : Repo) : Nat → String → String → List ContentItem × Option ExtractErr
  | 0, _, _ => ([], some ExtractErr.outOfFuel)
  | fuel + 1, id, version =>
    match repo.getModule id version with
    | none => ([], some (ExtractErr.contentNotFound id version))
    | some m =>
      if m.portalType = "Collection" then
        match repo.getTree m.id m.version with
        | none => ([], some (ExtractErr.treeNotFound m.id m.version))
        | some tree =>
          let rest := extract_children (extract_content repo fuel) m.id m.version
            (flatten_tree_to_ident_hashs tree)
          (ContentItem.collection m tree :: rest.1, rest.2)
      else
        match repo.getContent m.ident with
        | none => ([], some (ExtractErr.indexNotFound id version))
        | some c => ([ContentItem.document m c], none)

/-- The per-unit work of the export loop in main / render_to_html:
reference resolution runs exactly for rows whose portal type is Module, on
the markup of the unit; collections and other types pass through.  (The
cosmetic metadata templating around the content is outside the modelled
core.) -/
def render_unit (rr : ResolveRepo) : ContentItem → ContentItem × List RefError
  | ContentItem.document row c =>
    if row.portalType = "Module" then
      let r := fix_reference_urls rr row.ident c
      (ContentItem.document row r.1, r.2)
    else (ContentItem.document row c, [])
  | u => (u, [])

/-- The export loop of main: every unit yielded by extract_content is
rendered (resolving references for modules) and written out; the walk
error, if any, terminates the loop after the units already yielded. -/
def run_export (repo : Repo) (rr : ResolveRepo) (fuel : Nat) (id version : String) :
    List (ContentItem × List RefError) × Option ExtractErr :=
  let r := extract_content repo fuel id version
  (r.1.map (render_unit rr), r.2)

/-- The child (id, version) pairs a collection walk recurses on: every
ident hash of the flattened tree that splits, minus the pairs equal to the
composite itself. -/
def childTargets (selfId selfVersion : String) (hs : List String) : List (String × String) :=
  (hs.filterMap splitIdentHash).filter
    (fun p => decide (¬ (p.1 = selfId ∧ p.2 = selfVersion)))

/-- Fetchability of the whole structural tree under a root, indexed by a
depth bound: a leaf row with content present, or a collection row whose
tree row is present, whose flattened ident hashes all split, and whose
non-self child pairs are all fetchable one level lower. -/
inductive Fetchable (repo : Repo) : Nat → String → String → Prop where
  | document : ∀ {fuel : Nat} {id version : String} {m : ModuleRow} {c : Elem},
      repo.getModule id version = some m →
      m.portalType ≠ "Collection" →
      repo.getContent m.ident = some c →
      Fetchable repo (fuel + 1) id version
  | collection : ∀ {fuel : Nat} {id version : String} {m : ModuleRow} {t : TocTree},
      repo.getModule id version = some m →
      m.portalType = "Collection" →
      repo.getTree m.id m.version = some t →
      (∀ h ∈ flatten_tree_to_ident_hashs t, splitIdentHash h ≠ none) →
      (∀ p ∈ childTargets m.id m.version (flatten_tree_to_ident_hashs t),
        Fetchable repo fuel p.1 p.2) →
      Fetchable repo (fuel + 1) id version

mutual

/-- Spec-side count (refinement target): the number of documents the
flattening visits, counting every node once except the subcol grouping
sentinels, which stand for no document. -/
def visitedDocCount : TocTree → Nat
  | TocTree.node id _ contents => (if id != "subcol" then 1 else 0) + visitedContentsCount contents
  | TocTree.item _ _ => 1

/-- Spec-side count over a contents list. -/
def visitedContentsCount : List TocTree → Nat
  | [] => 0
  | t :: ts => visitedDocCount t + visitedContentsCount ts

end

/-- A resolver repository with no rows at all. -/
def rrEmpty : ResolveRepo :=
  { uuidNVersionById := fun _ => none,
    uuidNVersionByIdAndVersion := fun _ _ => none,
    latestDocumentIdentById := fun _ => none,
    documentIdentByIdAndVersion := fun _ _ => none,
    resourceInfoByIdentAndFilename := fun _ _ => none }

/-- The repository of the C1 scenario: (m10strong, absent version) resolves
to canonical id u-123 at version 2.1; nothing else resolves. -/
def rrC1 : ResolveRepo :=
  { rrEmpty with uuidNVersionById := fun mid =>
      if mid = "m10strong" then some ("u-123", "2.1") else none }

/-- The C1 repository with the module id amended to the legacy shape:
(m10046, absent version) resolves to u-123 at 2.1. -/
def rrC1b : ResolveRepo :=
  { rrEmpty with uuidNVersionById := fun mid =>
      if mid = "m10046" then some ("u-123", "2.1") else none }

/-- A document whose only anchor carries the C1 reference. -/
def docC1 : Elem :=
  Elem.elem "body" [] [Elem.elem "a" [("href", "m10strong/latest#intro")] []]

/-- The same document with the amended module id. -/
def docC1b : Elem :=
  Elem.elem "body" [] [Elem.elem "a" [("href", "m10046/latest#intro")] []]

/-- The repository of the C6 scenario: the resource row for filename
figure1.png is (abc123, figure1.png, image/png) under any owning document. -/
def rrC6 : ResolveRepo :=
  { rrEmpty with resourceInfoByIdentAndFilename := fun _ f =>
      if f = "figure1.png" then some { hash := "abc123", filename := "figure1.png", mediatype := "image/png" }
      else none }

/-- The repository of the C8 scenario: (m10046, absent) resolves to
(u-123, 2.1); no resource rows. -/
def rrC8 : ResolveRepo :=
  { rrEmpty with uuidNVersionById := fun mid =>
      if mid = "m10046" then some ("u-123", "2.1") else none }

/-- A document with one module-reference anchor, before resolution. -/
def docC8 : Elem := Elem.elem "body" [] [Elem.elem "a" [("href", "m10046")] []]

/-- The same document after one resolution pass. -/
def docC8r : Elem := Elem.elem "body" [] [Elem.elem "a" [("href", "u-123@2.1.html")] []]

/-- Walker fixture: a collection row. -/
def rowR4 : ModuleRow :=
  { id := "r0", version := "1.1", ident := 10, portalType := "Collection", title := "Root" }

/-- Walker fixture: the tree of rowR4, listing itself and one child. -/
def treeR4 : TocTree := TocTree.node "r0@1.1" "Root" [TocTree.item "c1@1.1" "Child one"]

/-- Walker fixture for C4: the root collection is present, its child row
c1@1.1 is not. -/
def repoC4 : Repo :=
  { getModule := fun i v => if i = "r0" ∧ v = "1.1" then some rowR4 else none,
    getTree := fun i v => if i = "r0" ∧ v = "1.1" then some treeR4 else none,
    getContent := fun _ => none }

/-- A repository with no rows at all. -/
def repoEmpty : Repo :=
  { getModule := fun _ _ => none, getTree := fun _ _ => none, getContent := fun _ => none }

/-- Walker fixture for C5: a collection row whose tree lists the collection
itself twice (once as a node id, once as a leaf child). -/
def rowC5 : ModuleRow :=
  { id := "u1", version := "1.1", ident := 20, portalType := "Collection", title := "Loop" }

/-- The self-listing tree of rowC5. -/
def treeC5 : TocTree := TocTree.node "u1@1.1" "Loop" [TocTree.item "u1@1.1" "Loop again"]

/-- The repository of the C5 scenario. -/
def repoC5 : Repo :=
  { getModule := fun i v => if i = "u1" ∧ v = "1.1" then some rowC5 else none,
    getTree := fun i v => if i = "u1" ∧ v = "1.1" then some treeC5 else none,
    getContent := fun _ => none }

/-- Walker fixture for the C3 witness: a single leaf module. -/
def rowW3 : ModuleRow :=
  { id := "u9", version := "1.1", ident := 3, portalType := "Module", title := "Leaf" }

/-- Its content: one unresolvable anchor and one unresolvable image. -/
def docW3 : Elem :=
  Elem.elem "body" []
    [Elem.elem "a" [("href", "m99999")] [], Elem.elem "img" [("src", "nope.png")] []]

/-- The repository of the C3 witness. -/
def repoW3 : Repo :=
  { getModule := fun i v => if i = "u9" ∧ v = "1.1" then some rowW3 else none,
    getTree := fun _ _ => none,
    getContent := fun n => if n = 3 then some docW3 else none }

/-- Unfolding of the flattening at a non-sentinel composite. -/
theorem flatten_node_not_subcol (id title : String) (cs : List TocTree) (h : id ≠ "subcol") :
    flatten_tree_to_ident_hashs (TocTree.node id title cs) = id :: flattenContents cs := by
  simp [flatten_tree_to_ident_hashs, bne_iff_ne, h]

mutual

/-- The flattening yields one entry per visited document. -/
theorem flatten_length_eq : ∀ t : TocTree,
    (flatten_tree_to_ident_hashs t).length = visitedDocCount t
  | TocTree.node id title contents => by
    rw [flatten_tree_to_ident_hashs, visitedDocCount, List.length_append,
      flattenContents_length_eq contents]
    cases id != "subcol" <;> simp
  | TocTree.item id title => by rfl

/-- The same, over a contents list. -/
theorem flattenContents_length_eq : ∀ ts : List TocTree,
    (flattenContents ts).length = visitedContentsCount ts
  | [] => by rfl
  | t :: ts => by
    rw [flattenContents, visitedContentsCount, List.length_append,
      flatten_length_eq t, flattenContents_length_eq ts]

end

/-- C2: flattening is a flat depth-first pre-order sequence: a (non
sentinel) composite is yielded before anything below it, the expansions of
its children follow in the listed order — a child that is itself a
composite expands by the same equations — and each visited document
contributes exactly one entry. -/
theorem c2_flatten_pre_order (id title : String) (cs : List TocTree) (h : id ≠ "subcol") :
    flatten_tree_to_ident_hashs (TocTree.node id title cs) = id :: flattenContents cs
    ∧ (∀ (t : TocTree) (ts : List TocTree),
        flattenContents (t :: ts) = flatten_tree_to_ident_hashs t ++ flattenContents ts)
    ∧ (∀ t : TocTree, (flatten_tree_to_ident_hashs t).length = visitedDocCount t) :=
  ⟨flatten_node_not_subcol id title cs h, fun _ _ => rfl, flatten_length_eq⟩

/-- C2 witness: the pre-order shape at a concrete two-level tree. -/
theorem c2_witness :
    flatten_tree_to_ident_hashs
        (TocTree.node "b0@1.1" "Book" [TocTree.item "c1@1.1" "One",
          TocTree.node "subcol" "Part" [TocTree.item "c2@1.1" "Two"]]) =
      "b0@1.1" :: flattenContents [TocTree.item "c1@1.1" "One",
        TocTree.node "subcol" "Part" [TocTree.item "c2@1.1" "Two"]] :=
  (c2_flatten_pre_order "b0@1.1" "Book"
    [TocTree.item "c1@1.1" "One", TocTree.node "subcol" "Part" [TocTree.item "c2@1.1" "Two"]]
    (by decide)).1

/-- C5: the walk over a child list is unchanged when every ident hash that
splits to the composite's own (id, version) is removed: such an entry is
skipped outright — no recursion, no second yield for the composite — and,
concretely, a collection whose tree lists itself walks to completion with
exactly its own unit and no error even at recursion budget one. -/
theorem c5_self_reference_skipped :
    (∀ (step : String → String → List ContentItem × Option ExtractErr)
       (selfId selfVersion : String) (hs : List String),
      extract_children step selfId selfVersion hs =
        extract_children step selfId selfVersion
          (hs.filter (fun h => decide (splitIdentHash h ≠ some (selfId, selfVersion)))))
    ∧ extract_content repoC5 1 "u1" "1.1" = ([ContentItem.collection rowC5 treeC5], none) := by
  constructor
  · intro step sid sver hs
    induction hs with
    | nil => rfl
    | cons h hs ih =>
      rcases hsp : splitIdentHash h with _ | ⟨cid, cver⟩
      · simp [extract_children, List.filter_cons, hsp]
      · by_cases hself : cid = sid ∧ cver = sver
        · obtain ⟨rfl, rfl⟩ := hself
          simp [extract_children, List.filter_cons, hsp, ih]
        · have hcond : splitIdentHash h ≠ some (sid, sver) := by
            rw [hsp]
            simp only [ne_eq, Option.some.injEq, Prod.mk.injEq]
            exact hself
          rcases hstep : step cid cver with ⟨items, e⟩
          cases e with
          | none => simp [extract_children, List.filter_cons, hsp, hcond, hself, hstep, ih]
          | some err => simp [extract_children, List.filter_cons, hsp, hcond, hself, hstep]
  · rfl

/-- The child targets of a cons: the split pair joins the targets unless it
is the composite itself. -/
theorem childTargets_cons (sid sver h : String) (hs : List String) (cid cver : String)
    (hsp : splitIdentHash h = some (cid, cver)) :
    childTargets sid sver (h :: hs) =
      if cid = sid ∧ cver = sver then childTargets sid sver hs
      else (cid, cver) :: childTargets sid sver hs := by
  by_cases hself : cid = sid ∧ cver = sver
  · simp [childTargets, List.filterMap_cons, hsp, hself.1, hself.2]
  · have hcond : ¬((cid, cver).1 = sid ∧ (cid, cver).2 = sver) := hself
    simp [childTargets, List.filterMap_cons, hsp, hself, List.filter_cons, hcond]

/-- If every hash splits and every non-self child runs without error, the
child walk of a composite terminates without error. -/
theorem extract_children_ok (step : String → String → List ContentItem × Option ExtractErr)
    (selfId selfVersion : String) :
    ∀ hs : List String,
      (∀ h ∈ hs, splitIdentHash h ≠ none) →
      (∀ p ∈ childTargets selfId selfVersion hs, (step p.1 p.2).2 = none) →
      (extract_children step selfId selfVersion hs).2 = none := by
  intro hs
  induction hs with
  | nil => intro _ _; rfl
  | cons h hs ih =>
    intro hsplit hok
    rcases hsp : splitIdentHash h with _ | ⟨cid, cver⟩
    · exact absurd hsp (hsplit h (by simp))
    · have hT := childTargets_cons selfId selfVersion h hs cid cver hsp
      by_cases hself : cid = selfId ∧ cver = selfVersion
      · rw [if_pos hself] at hT
        simp only [extract_children, hsp, if_pos hself]
        exact ih (fun x hx => hsplit x (by simp [hx])) (fun p hp => hok p (hT ▸ hp))
      · rw [if_neg hself] at hT
        have hstep : (step cid cver).2 = none := hok (cid, cver) (by rw [hT]; simp)
        rcases hq : step cid cver with ⟨items, e⟩
        rw [hq] at hstep
        subst hstep
        simp only [extract_children, hsp, if_neg hself, hq]
        exact ih (fun x hx => hsplit x (by simp [hx]))
          (fun p hp => hok p (by rw [hT]; exact List.mem_cons_of_mem _ hp))

/-- A fetchable root walks to completion without a terminating error. -/
theorem extract_content_ok : ∀ (repo : Repo) (fuel : Nat) (id version : String),
    Fetchable repo fuel id version → (extract_content repo fuel id version).2 = none := by
  intro repo fuel id version hf
  induction hf with
  | document hm hty hc =>
    rename_i m c
    simp [extract_content, hm, hty, hc]
  | collection hm hty ht hsplit hrec ih =>
    rename_i fuel id version m t
    simp only [extract_content, hm, hty, if_pos, ht]
    exact extract_children_ok (extract_content repo fuel) m.id m.version
      (flatten_tree_to_ident_hashs t) hsplit ih

/-- C3: for a root whose structural tree is fetchable, the export loop
consumes the whole walk without a fatal error — the reference resolver is a
total error-collecting pass, so this holds against every resolver
repository, in particular ones on which embedded references fail to parse
or to resolve — and every yielded unit is rendered and emitted. -/
theorem c3_export_completes (repo : Repo) (fuel : Nat) (id version : String)
    (hf : Fetchable repo fuel id version) (rr : ResolveRepo) :
    (run_export repo rr fuel id version).2 = none ∧
    (run_export repo rr fuel id version).1.length = (extract_content repo fuel id version).1.length :=
  ⟨extract_content_ok repo fuel id version hf, by simp [run_export]⟩

/-- C3 witness: a one-leaf repository whose document holds an unresolvable
anchor and an unresolvable image, against the empty resolver repository. -/
theorem c3_witness :
    (run_export repoW3 rrEmpty 1 "u9" "1.1").2 = none ∧
    (run_export repoW3 rrEmpty 1 "u9" "1.1").1.length =
      (extract_content repoW3 1 "u9" "1.1").1.length :=
  c3_export_completes repoW3 1 "u9" "1.1"
    (Fetchable.document (m := rowW3) (c := docW3) rfl (by decide) rfl) rrEmpty

/-- C4: a root (id, version) with no module row terminates the walk with
the structural not-found error before yielding any unit; and, concretely,
the same error is raised for an interior structural member (the child
c1@1.1 of repoC4) after the units walked so far. -/
theorem c4_not_found_aborts (repo : Repo) (id version : String) (fuel : Nat)
    (hm : repo.getModule id version = none) :
    extract_content repo (fuel + 1) id version =
      ([], some (ExtractErr.contentNotFound id version))
    ∧ extract_content repoC4 2 "r0" "1.1" =
        ([ContentItem.collection rowR4 treeR4],
          some (ExtractErr.contentNotFound "c1" "1.1")) :=
  ⟨by simp [extract_content, hm], rfl⟩

/-- C4 witness: the empty repository at a concrete root. -/
theorem c4_witness :
    extract_content repoEmpty 1 "zz" "9.9" =
      ([], some (ExtractErr.contentNotFound "zz" "9.9"))
    ∧ extract_content repoC4 2 "r0" "1.1" =
        ([ContentItem.collection rowR4 treeR4],
          some (ExtractErr.contentNotFound "c1" "1.1")) :=
  c4_not_found_aborts repoEmpty "zz" "9.9" 0 rfl

/-- C1 counterexample: against the repository of the claim (m10strong at
absent version resolving to u-123 at 2.1), the reference
m10strong/latest#intro is not classified as a module reference — m10strong
does not fit the (m|col) digits 4-5 module-id token, so the greedy resource
group captures the whole string and the parser returns a resource
reference — and the anchor's href is left unchanged rather than rewritten
to u-123@2.1.html#intro; the walk records a resource NotFound error. -/
theorem c1_counterexample :
    parse_reference "m10strong/latest#intro" =
      some (ParsedRef.resourceRef "m10strong/latest#intro" none none)
    ∧ fix_anchor_references rrC1 3 docC1 =
        (docC1, [RefError.notFound 3 "m10strong/latest#intro"])
    ∧ fix_anchor_references rrC1 3 docC1 ≠
        (Elem.elem "body" [] [Elem.elem "a" [("href", "u-123@2.1.html#intro")] []], []) := by
  refine ⟨rfl, rfl, ?_⟩
  show (docC1, [RefError.notFound 3 "m10strong/latest#intro"]) ≠
    (Elem.elem "body" [] [Elem.elem "a" [("href", "u-123@2.1.html#intro")] []], ([] : List RefError))
  intro hEq
  exact absurd (congrArg Prod.snd hEq) (by simp)

/-- C1 amended: with the module id amended to the legacy shape m10046 (one
or two letters then four or five digits), the reference
m10046/latest#intro parses as a module reference with the latest version
normalized to absent, and the anchor's href is rewritten to exactly
u-123@2.1.html#intro when the repository resolves (m10046, absent) to
(u-123, 2.1). -/
theorem c1_amended :
    parse_reference "m10046/latest#intro" =
      some (ParsedRef.moduleRef "m10046" none "#intro")
    ∧ fix_anchor_references rrC1b 3 docC1b =
        (Elem.elem "body" [] [Elem.elem "a" [("href", "u-123@2.1.html#intro")] []], []) :=
  ⟨rfl, rfl⟩

/-- C6: in the intended semantics of get_resource_info (the Python 2
basestring normalization modelled as the no-op it was meant to be on an
already parsed row), resolving a document containing an img with
src figure1.png against a repository whose resource row for that filename
is (abc123, figure1.png, image/png) rewrites the element to
src ../resources/abc123 with data-filename figure1.png and data-mediatype
image/png, and records no error. -/
theorem c6_resource_round_trip :
    fix_media_references rrC6 4
        (Elem.elem "body" [] [Elem.elem "img" [("src", "figure1.png")] []]) =
      (Elem.elem "body" []
        [Elem.elem "img"
          [("src", "../resources/abc123"), ("data-filename", "figure1.png"),
           ("data-mediatype", "image/png")] []], []) := rfl

/-- C9: a reference that is empty after stripping, a pure in-page anchor,
an absolute external scheme (http covering https, mailto, ftp, file,
javascript:) or the legacy /help prefix is ignored before parsing: the
ignore predicate holds, and both the anchor and the media loop bodies leave
the element's attributes unchanged and record no error. -/
theorem c9_pass_through (ref : String)
    (H : pyStrip ref = "" ∨ strLeadsWith (pyStrip ref) "#" = true ∨
      strLeadsWith (pyStrip ref) "http" = true ∨ strLeadsWith (pyStrip ref) "mailto" = true ∨
      strLeadsWith (pyStrip ref) "file" = true ∨ strLeadsWith (pyStrip ref) "ftp" = true ∨
      strLeadsWith (pyStrip ref) "javascript:" = true ∨ strLeadsWith (pyStrip ref) "/help" = true) :
    should_ignore_reference ref = true
    ∧ (∀ (rr : ResolveRepo) (di : Nat) (attrs : List (String × String)),
        getAttr attrs "href" = some ref → anchorStepAttrs rr di attrs = (attrs, []))
    ∧ (∀ (rr : ResolveRepo) (di : Nat) (attr : String) (attrs : List (String × String)),
        getAttr attrs attr = some ref → mediaStepAttrs rr di attr attrs = (attrs, [])) := by
  have hig : should_ignore_reference ref = true := by
    unfold should_ignore_reference
    rcases H with h | h | h | h | h | h | h | h <;> simp [h]
  refine ⟨hig, ?_, ?_⟩
  · intro rr di attrs hh
    simp only [anchorStepAttrs, hh]
    by_cases he : ref = ""
    · simp [he]
    · simp [he, hig]
  · intro rr di attr attrs hh
    simp only [mediaStepAttrs, hh]
    by_cases he : ref = ""
    · simp [he]
    · simp [he, hig]

/-- C9 witness: the mailto example of the claim on an anchor. -/
theorem c9_witness :
    should_ignore_reference "mailto:a@b.com" = true ∧
    anchorStepAttrs rrEmpty 1 [("href", "mailto:a@b.com")] =
      ([("href", "mailto:a@b.com")], []) := by
  have h := c9_pass_through "mailto:a@b.com" (Or.inr (Or.inr (Or.inr (Or.inl rfl))))
  exact ⟨h.1, h.2.1 rrEmpty 1 [("href", "mailto:a@b.com")] rfl⟩

/-- C10: the exclusion check is a bare string-prefix test on the stripped
value: any reference merely beginning with http, file, ftp or mailto —
also a plain resource filename such as httpnotes.png or filelist.txt — is
silently skipped by both loop bodies: attributes unchanged, no error
recorded, the parser never consulted. -/
theorem c10_prefix_shadowing (ref : String)
    (H : strLeadsWith (pyStrip ref) "http" = true ∨ strLeadsWith (pyStrip ref) "file" = true ∨
      strLeadsWith (pyStrip ref) "ftp" = true ∨ strLeadsWith (pyStrip ref) "mailto" = true) :
    should_ignore_reference ref = true
    ∧ (∀ (rr : ResolveRepo) (di : Nat) (attrs : List (String × String)),
        getAttr attrs "href" = some ref → anchorStepAttrs rr di attrs = (attrs, []))
    ∧ (∀ (rr : ResolveRepo) (di : Nat) (attr : String) (attrs : List (String × String)),
        getAttr attrs attr = some ref → mediaStepAttrs rr di attr attrs = (attrs, [])) := by
  have hig : should_ignore_reference ref = true := by
    unfold should_ignore_reference
    rcases H with h | h | h | h <;> simp [h]
  refine ⟨hig, ?_, ?_⟩
  · intro rr di attrs hh
    simp only [anchorStepAttrs, hh]
    by_cases he : ref = ""
    · simp [he]
    · simp [he, hig]
  · intro rr di attr attrs hh
    simp only [mediaStepAttrs, hh]
    by_cases he : ref = ""
    · simp [he]
    · simp [he, hig]

/-- C10 witness: the non-URL filename httpnotes.png on an image source is
swallowed by the prefix test. -/
theorem c10_witness :
    should_ignore_reference "httpnotes.png" = true ∧
    mediaStepAttrs rrEmpty 2 "src" [("src", "httpnotes.png")] =
      ([("src", "httpnotes.png")], []) := by
  have h := c10_prefix_shadowing "httpnotes.png" (Or.inl rfl)
  exact ⟨h.1, h.2.2 rrEmpty 2 "src" [("src", "httpnotes.png")] rfl⟩

/-- The anchor traversal distributes over list append. -/
theorem fixAnchorList_append (rr : ResolveRepo) (di : Nat) (o1 o2 : List Elem) :
    fixAnchorList rr di (o1 ++ o2) = fixAnchorList rr di o1 ++ fixAnchorList rr di o2 := by
  induction o1 with
  | nil => rfl
  | cons e es ih => simp [fixAnchorList, ih]

/-- C7: a well-formed module reference whose target the repository cannot
resolve yields exactly one NotFound error: the anchor's attributes are left
unchanged and the single error is appended; and, at document level, a
document holding such an anchor anywhere among other content is still
processed to the end — every sibling is resolved exactly as it would be on
its own, the errors of the document are those of the siblings with the one
NotFound in place, and the document (its markup) is still produced. -/
theorem c7_unresolved_module_soft (rr : ResolveRepo) (di : Nat) (ref module_id : String)
    (version : Option String) (fragment : String) (attrs cattrs : List (String × String))
    (o1 o2 : List Elem)
    (hhref : getAttr attrs "href" = some ref)
    (hsi : should_ignore_reference ref = false)
    (hp : parse_reference ref = some (ParsedRef.moduleRef module_id version fragment))
    (hq : get_uuid_n_version rr module_id version = none) :
    anchorStepAttrs rr di attrs = (attrs, [RefError.notFound di ref])
    ∧ fix_anchor_references rr di (Elem.elem "body" cattrs (o1 ++ Elem.elem "a" attrs [] :: o2)) =
        (Elem.elem "body" cattrs
          ((fixAnchorList rr di o1).map Prod.fst ++
            Elem.elem "a" attrs [] :: (fixAnchorList rr di o2).map Prod.fst),
         ((fixAnchorList rr di o1).map Prod.snd).flatten ++
           RefError.notFound di ref :: ((fixAnchorList rr di o2).map Prod.snd).flatten) := by
  have hne : ref ≠ "" := by
    intro he
    rw [he] at hsi
    exact absurd hsi (by decide)
  have hstep : anchorStepAttrs rr di attrs = (attrs, [RefError.notFound di ref]) := by
    simp only [anchorStepAttrs, hhref]
    simp [hne, hsi, hp, hq]
  refine ⟨hstep, ?_⟩
  have ha : fixAnchorTree rr di (Elem.elem "a" attrs []) =
      (Elem.elem "a" attrs [], [RefError.notFound di ref]) := by
    simp only [fixAnchorTree, fixAnchorList]
    rw [if_pos (by decide), hstep]
    simp
  simp only [fix_anchor_references, fixAnchorTree]
  rw [fixAnchorList_append]
  simp only [fixAnchorList]
  rw [ha]
  simp [List.map_append]

/-- C7 witness: the unresolvable module reference m99999 against the empty
repository. -/
theorem c7_witness :
    anchorStepAttrs rrEmpty 7 [("href", "m99999")] =
      ([("href", "m99999")], [RefError.notFound 7 "m99999"]) :=
  (c7_unresolved_module_soft rrEmpty 7 "m99999" "m99999" none "" [("href", "m99999")] []
    [] [] rfl rfl rfl rfl).1

/-- C8 counterexample: resolution is not idempotent as claimed.  A first
pass rewrites the anchor m10046 to u-123@2.1.html; a second pass over the
resolved document does not reproduce the first pass result: the rewritten
href is neither on the pass-through exclusion list nor outside the
reference grammar — it re-parses as a resource reference — so the second
pass re-processes it and records a NotFound error that the first pass did
not. -/
theorem c8_counterexample :
    fix_anchor_references rrC8 5 docC8 = (docC8r, []) ∧
    fix_anchor_references rrC8 5 docC8r = (docC8r, [RefError.notFound 5 "u-123@2.1.html"]) ∧
    fix_anchor_references rrC8 5 docC8r ≠ fix_anchor_references rrC8 5 docC8 ∧
    should_ignore_reference "u-123@2.1.html" = false ∧
    parse_reference "u-123@2.1.html" =
      some (ParsedRef.resourceRef "u-123@2.1.html" none none) := by
  refine ⟨rfl, rfl, ?_, rfl, rfl⟩
  show (docC8r, [RefError.notFound 5 "u-123@2.1.html"]) ≠
    ((docC8r, []) : Elem × List RefError)
  intro hEq
  exact absurd (congrArg Prod.snd hEq) (by simp)

/-- Stripping trailing whitespace commutes with a non-whitespace head. -/
theorem stripRight_cons (c : Char) (l : List Char) (hc : isPySpace c = false) :
    ((c :: l).reverse.dropWhile isPySpace).reverse =
      c :: (l.reverse.dropWhile isPySpace).reverse := by
  rw [List.reverse_cons, List.dropWhile_append]
  by_cases h : (l.reverse.dropWhile isPySpace).isEmpty
  · rw [if_pos h]
    have he : l.reverse.dropWhile isPySpace = [] := by
      cases hq : l.reverse.dropWhile isPySpace
      · rfl
      · rw [hq] at h; simp at h
    rw [he]
    simp [List.dropWhile, hc]
  · rw [if_neg h]
    rw [List.reverse_append]
    simp

/-- C8 amended: a second resolution pass is stable on the markup but not
silent.  Any href of the rewritten resource shape ../resources/<anything>
is not on the pass-through exclusion list; the anchor loop body re-parses
it (as a resource reference, or as invalid when the tail embeds an inner
newline) and, whenever the repository resolves no filename beginning with
the two dots, leaves the attributes unchanged while recording exactly one
error.  So re-running the Resolver preserves already-rewritten markup but
extends the error list, one entry per previously rewritten element. -/
theorem c8_amended (rr : ResolveRepo) (di : Nat) (tail : String)
    (attrs : List (String × String))
    (hhref : getAttr attrs "href" = some ("../resources/" ++ tail))
    (hmiss : ∀ f : String, strLeadsWith f ".." = true →
      rr.resourceInfoByIdentAndFilename di f = none) :
    should_ignore_reference ("../resources/" ++ tail) = false
    ∧ ∃ e : RefError, anchorStepAttrs rr di attrs = (attrs, [e]) := by
  have hL1 : ("../resources/" ++ tail).toList =
      '.' :: '.' :: '/' :: 'r' :: 'e' :: 's' :: 'o' :: 'u' :: 'r' :: 'c' :: 'e' :: 's' :: '/' ::tail.toList := by
    show ("../resources/" ++ tail).data = _
    rw [String.data_append]
    rfl
  have hstrip : pyStrip ("../resources/" ++ tail) =
      String.mk ('.' :: '.' ::((('/' :: 'r' :: 'e' :: 's' :: 'o' :: 'u' :: 'r' :: 'c' :: 'e' :: 's' :: '/' ::tail.toList).reverse.dropWhile isPySpace).reverse)) := by
    unfold pyStrip
    rw [hL1]
    rw [show List.dropWhile isPySpace
        ('.' :: '.' :: '/' :: 'r' :: 'e' :: 's' :: 'o' :: 'u' :: 'r' :: 'c' :: 'e' :: 's' :: '/' ::tail.toList) =
        ('.' :: '.' :: '/' :: 'r' :: 'e' :: 's' :: 'o' :: 'u' :: 'r' :: 'c' :: 'e' :: 's' :: '/' ::tail.toList) from rfl]
    rw [stripRight_cons '.' _ (by decide), stripRight_cons '.' _ (by decide)]
  have hsi : should_ignore_reference ("../resources/" ++ tail) = false := by
    unfold should_ignore_reference
    rw [hstrip]
    rfl
  have hne : ("../resources/" ++ tail) ≠ "" := by
    intro he
    rw [he] at hsi
    exact absurd hsi (by decide)
  have hmatch : reMatchPath ("../resources/" ++ tail) =
      match fragCheck (tail.toList.dropWhile isResourceChar) with
      | none => none
      | some frag => some (PathMatch.mk none none
          (some (String.mk
            ('.' :: '.' :: '/' :: 'r' :: 'e' :: 's' :: 'o' :: 'u' :: 'r' :: 'c' :: 'e' :: 's' :: '/' ::(tail.toList.takeWhile isResourceChar))))
          (String.mk frag)) := by
    unfold reMatchPath
    rw [hL1]
    rfl
  have hparse : parse_reference ("../resources/" ++ tail) =
      match fragCheck (tail.toList.dropWhile isResourceChar) with
      | none => none
      | some _ => some (ParsedRef.resourceRef
          (pyStrip (String.mk
            ('.' :: '.' :: '/' :: 'r' :: 'e' :: 's' :: 'o' :: 'u' :: 'r' :: 'c' :: 'e' :: 's' :: '/' ::(tail.toList.takeWhile isResourceChar))))
          none none) := by
    unfold parse_reference
    rw [hmatch]
    cases hfc : fragCheck (tail.toList.dropWhile isResourceChar) <;> rfl
  refine ⟨hsi, ?_⟩
  cases hfc : fragCheck (tail.toList.dropWhile isResourceChar) with
  | none =>
    refine ⟨RefError.invalid di ("../resources/" ++ tail), ?_⟩
    have hp : parse_reference ("../resources/" ++ tail) = none := by rw [hparse, hfc]
    simp only [anchorStepAttrs, hhref]
    simp [hne, hsi, hp]
  | some frag =>
    have hstrip2 : pyStrip (String.mk
        ('.' :: '.' :: '/' :: 'r' :: 'e' :: 's' :: 'o' :: 'u' :: 'r' :: 'c' :: 'e' :: 's' :: '/' ::(tail.toList.takeWhile isResourceChar))) =
        String.mk ('.' :: '.' ::((('/' :: 'r' :: 'e' :: 's' :: 'o' :: 'u' :: 'r' :: 'c' :: 'e' :: 's' :: '/' ::(tail.toList.takeWhile isResourceChar)).reverse.dropWhile isPySpace).reverse)) := by
      unfold pyStrip
      rw [show (String.mk ('.' :: '.' :: '/' :: 'r' :: 'e' :: 's' :: 'o' :: 'u' :: 'r' :: 'c' :: 'e' :: 's' :: '/' ::(tail.toList.takeWhile isResourceChar))).toList =
        ('.' :: '.' :: '/' :: 'r' :: 'e' :: 's' :: 'o' :: 'u' :: 'r' :: 'c' :: 'e' :: 's' :: '/' ::(tail.toList.takeWhile isResourceChar)) from rfl]
      rw [show List.dropWhile isPySpace
          ('.' :: '.' :: '/' :: 'r' :: 'e' :: 's' :: 'o' :: 'u' :: 'r' :: 'c' :: 'e' :: 's' :: '/' ::(tail.toList.takeWhile isResourceChar)) =
          ('.' :: '.' :: '/' :: 'r' :: 'e' :: 's' :: 'o' :: 'u' :: 'r' :: 'c' :: 'e' :: 's' :: '/' ::(tail.toList.takeWhile isResourceChar)) from rfl]
      rw [stripRight_cons '.' _ (by decide), stripRight_cons '.' _ (by decide)]
    have hlw : strLeadsWith (pyStrip (String.mk
        ('.' :: '.' :: '/' :: 'r' :: 'e' :: 's' :: 'o' :: 'u' :: 'r' :: 'c' :: 'e' :: 's' :: '/' ::(tail.toList.takeWhile isResourceChar)))) ".." = true := by
      rw [hstrip2]
      rfl
    have hinfo := hmiss _ hlw
    have hp : parse_reference ("../resources/" ++ tail) =
        some (ParsedRef.resourceRef
          (pyStrip (String.mk
            ('.' :: '.' :: '/' :: 'r' :: 'e' :: 's' :: 'o' :: 'u' :: 'r' :: 'c' :: 'e' :: 's' :: '/' ::(tail.toList.takeWhile isResourceChar))))
          none none) := by rw [hparse, hfc]
    refine ⟨RefError.notFound di (pyStrip (String.mk
      ('.' :: '.' :: '/' :: 'r' :: 'e' :: 's' :: 'o' :: 'u' :: 'r' :: 'c' :: 'e' :: 's' :: '/' ::(tail.toList.takeWhile isResourceChar)))), ?_⟩
    have hinfo2 : rr.resourceInfoByIdentAndFilename di
        (pyStrip (String.mk
          ('.' :: '.' :: '/' :: 'r' :: 'e' :: 's' :: 'o' :: 'u' :: 'r' :: 'c' :: 'e' :: 's' :: '/' ::(List.takeWhile isResourceChar tail.data)))) = none := hinfo
    simp only [anchorStepAttrs, hhref]
    simp [hne, hsi, hp, get_resource_info, pyTruthyOpt, hinfo, hinfo2]

/-- C8 amended witness: the rewritten path ../resources/abc123 against the
empty repository. -/
theorem c8_witness :
    should_ignore_reference ("../resources/" ++ "abc123") = false
    ∧ ∃ e : RefError, anchorStepAttrs rrEmpty 9 [("href", "../resources/abc123")] =
        ([("href", "../resources/abc123")], [e]) :=
  c8_amended rrEmpty 9 "abc123" [("href", "../resources/abc123")] rfl (fun _ _ => rfl)
